import Mathlib

/-!
Verification development for the `user-details` repository: a shallow
embedding of the RBAC authorization middleware (`router` package), of the
resilient outbound HTTP client (`vendor.lib/tng/tng-lib/http`), and of the
helper predicates they use, together with theorems settling the spec's
claims about them.

Conventions of the embedding:
* Go strings manipulated character-wise (the Authorization header) are
  `List Char` (`GoStr`); other strings are Lean `String`.
* Fallible Go calls returning `(T, error)` become `Except String T`.
* An HTTP response body (`[]byte` in the source) is modelled as
  `Option JValue`: `none` stands for bytes that are not valid JSON, and
  `some v` for bytes whose JSON value is `v`.  The `encoding/json`
  decoding steps of the source are modelled per target struct on `JValue`.
* Results of the callees `common.New`, `Client.Post`, `Client.Get` and
  `Client.handle` are passed to the embedded functions as explicit inputs,
  since the middleware and the retry loop are parametric in them.
-/

namespace UserDetails

/-- Go strings handled character-wise. -/
abbrev GoStr := List Char

/-- Decidable equality for `Except`, used to evaluate the embedded
fallible functions on concrete inputs. -/
instance {ε α : Type} [DecidableEq ε] [DecidableEq α] :
    DecidableEq (Except ε α) := fun a b =>
  match a, b with
  | .ok x, .ok y =>
    if h : x = y then .isTrue (by rw [h]) else
      .isFalse (fun he => h (Except.ok.inj he))
  | .error x, .error y =>
    if h : x = y then .isTrue (by rw [h]) else
      .isFalse (fun he => h (Except.error.inj he))
  | .ok _, .error _ => .isFalse (fun he => Except.noConfusion he)
  | .error _, .ok _ => .isFalse (fun he => Except.noConfusion he)

/-- Model of Go `strings.Split(s, " ")`: split at every space, keeping
empty fragments; the empty string yields `[[]]`, as `Split("", " ")`
yields `[""]`. -/
def splitSp : GoStr → List GoStr
  | [] => [[]]
  | c :: rest =>
    if c = ' ' then [] :: splitSp rest
    else
      match splitSp rest with
      | t :: ts => (c :: t) :: ts
      | [] => [[c]]

/-- The struct `Authentication` of the `router` package (field names kept,
including the source's spelling `Credenteials`). -/
structure Authentication where
  «Type» : GoStr
  Credenteials : GoStr
deriving DecidableEq, Repr

/-- `NewAuthentication` of the `router` package: split the header on
spaces; two tokens give scheme+credential, one token gives a bare
credential, anything else gives the zero `Authentication`. -/
def NewAuthentication (header : GoStr) : Authentication :=
  match splitSp header with
  | [a, b] => { «Type» := a, Credenteials := b }
  | [a] => { «Type» := [], Credenteials := a }
  | _ => { «Type» := [], Credenteials := [] }

/-- `Authentication.String` of the `router` package: render
`"Type Credenteials"`, or the bare credential when the type is empty. -/
def Authentication.String (a : Authentication) : GoStr :=
  if a.«Type» ≠ [] then a.«Type» ++ ' ' :: a.Credenteials
  else a.Credenteials

/-- The sentinel errors of the `router` package. -/
inductive GoErr where
  | errNoToken
  | errUnsupportedAuthentication
deriving DecidableEq, Repr

/-- The `errors.New` texts of the sentinels. -/
def GoErr.message : GoErr → String
  | .errNoToken => "no token"
  | .errUnsupportedAuthentication => "unsupported authentication"

/-- `getAuthentication` of the `router` package, with the request
abstracted to its Authorization header value (`""`, i.e. `[]`, when the
header is absent, as `r.Header.Get` yields). -/
def getAuthentication (header : GoStr) : Except GoErr Authentication :=
  if header = [] then .error .errNoToken
  else
    let authentication := NewAuthentication header
    if authentication.«Type» = "Bearer".toList then .ok authentication
    else .error .errUnsupportedAuthentication

/-- A JSON value; response body bytes are modelled as `Option JValue`,
with `none` standing for bytes that are not valid JSON. -/
inductive JValue where
  | null
  | jbool (b : Bool)
  | jnum (n : Int)
  | jstr (s : String)
  | jarr (xs : List JValue)
  | jobj (fields : List (String × JValue))

/-- Field lookup in a JSON object; as in `encoding/json`, the last
occurrence of a duplicated key wins. -/
def jLookup (fields : List (String × JValue)) (k : String) : Option JValue :=
  fields.foldl (fun acc p => if p.1 = k then some p.2 else acc) none

/-- Decoding a JSON field into a Go `string`: an absent or `null` field
leaves the zero value `""`; any other non-string value is a type error.
(`encoding/json` also partially fills sibling fields on a type error; the
theorems below apply decoders only to bodies that are either fully
well-typed or not JSON at all, where this model and `encoding/json`
agree.) -/
def decodeStr : Option JValue → Except String String
  | none => .ok ""
  | some .null => .ok ""
  | some (.jstr s) => .ok s
  | some _ => .error "json: cannot unmarshal value into field of type string"

/-- Decoding a JSON field into a Go `int64`/`int`. -/
def decodeInt : Option JValue → Except String Int
  | none => .ok 0
  | some .null => .ok 0
  | some (.jnum n) => .ok n
  | some _ => .error "json: cannot unmarshal value into field of type int64"

/-- Decoding a JSON field into a Go `[]string`. -/
def decodeStrList : Option JValue → Except String (List String)
  | none => .ok []
  | some .null => .ok []
  | some (.jarr xs) => xs.mapM (fun v => decodeStr (some v))
  | some _ => .error "json: cannot unmarshal value into field of type []string"

/-- The struct `Info` of the `router` package (JSON keys `cn`,
`sAMAccountName`, `mail`, `memberOf`). -/
structure Info where
  Cn : String
  SAMAccountName : String
  Mail : String
  MemberOf : List String
deriving DecidableEq, Repr

/-- Decoding one element of the `userInfo` array into an `Info`. -/
def decodeInfo : JValue → Except String Info
  | .null => .ok { Cn := "", SAMAccountName := "", Mail := "", MemberOf := [] }
  | .jobj fs => do
    let cn ← decodeStr (jLookup fs "cn")
    let sam ← decodeStr (jLookup fs "sAMAccountName")
    let mail ← decodeStr (jLookup fs "mail")
    let memberOf ← decodeStrList (jLookup fs "memberOf")
    .ok { Cn := cn, SAMAccountName := sam, Mail := mail, MemberOf := memberOf }
  | _ => .error "json: cannot unmarshal value into field of type Info"

/-- Decoding a JSON field into a Go `[]Info`. -/
def decodeInfoList : Option JValue → Except String (List Info)
  | none => .ok []
  | some .null => .ok []
  | some (.jarr xs) => xs.mapM decodeInfo
  | some _ => .error "json: cannot unmarshal value into field of type []Info"

/-- The struct `User` of the `router` package.  `Authentication`,
`BusinessLines` and `BusinessUnits` carry the JSON tag `-` and are never
populated by decoding. -/
structure User where
  Authentication : Authentication
  Info : List Info
  ExpTime : Int
  Roles : List String
  BusinessLines : List String
  BusinessUnits : List Int
deriving DecidableEq, Repr

/-- The zero value of `User`. -/
def zeroUser : User :=
  { Authentication := { «Type» := [], Credenteials := [] }, Info := [],
    ExpTime := 0, Roles := [], BusinessLines := [], BusinessUnits := [] }

/-- Model of `json.Unmarshal(body, &user)` for the struct `User`
(JSON keys `userInfo`, `expTime`, `chpRoles`). -/
def decodeUser (body : Option JValue) : Except String User :=
  match body with
  | none => .error "invalid character in response body"
  | some .null => .ok zeroUser
  | some (.jobj fs) => do
    let info ← decodeInfoList (jLookup fs "userInfo")
    let expTime ← decodeInt (jLookup fs "expTime")
    let roles ← decodeStrList (jLookup fs "chpRoles")
    .ok { zeroUser with Info := info, ExpTime := expTime, Roles := roles }
  | some _ => .error "json: cannot unmarshal value into type User"

/-- Model of `json.Unmarshal` for the anonymous response struct of
`getUser` with the single JSON key `error`. -/
def decodeErrField (body : Option JValue) : Except String String :=
  match body with
  | none => .error "invalid character in response body"
  | some .null => .ok ""
  | some (.jobj fs) => decodeStr (jLookup fs "error")
  | some _ => .error "json: cannot unmarshal value into error struct"

/-- The struct `errResonse` of the `router` package (name kept, including
the source's spelling); `Code` carries the JSON tag `-` and is set only
out-of-band from the HTTP status. -/
structure errResonse where
  Code : Int
  Message : String
deriving DecidableEq, Repr

/-- Model of `json.Unmarshal(body, &errResponse)` for `errResonse`: only
the JSON key `message` is decoded. -/
def decodeErrResonse (body : Option JValue) : Except String String :=
  match body with
  | none => .error "invalid character in response body"
  | some .null => .ok ""
  | some (.jobj fs) => decodeStr (jLookup fs "message")
  | some _ => .error "json: cannot unmarshal value into type errResonse"

/-- The struct `refData` of the `router` package (JSON keys `code`,
`name`). -/
structure refData where
  Code : String
  Name : String
deriving DecidableEq, Repr

/-- Decoding one element of the `refData` array. -/
def decodeRefData : JValue → Except String refData
  | .null => .ok { Code := "", Name := "" }
  | .jobj fs => do
    let code ← decodeStr (jLookup fs "code")
    let name ← decodeStr (jLookup fs "name")
    .ok { Code := code, Name := name }
  | _ => .error "json: cannot unmarshal value into type refData"

/-- Model of `json.Unmarshal(body, &response)` for the struct
`memberWrapperResponse` with the single JSON key `refData`. -/
def decodeMemberWrapper (body : Option JValue) : Except String (List refData) :=
  match body with
  | none => .error "invalid character in response body"
  | some .null => .ok []
  | some (.jobj fs) =>
    match jLookup fs "refData" with
    | none => .ok []
    | some .null => .ok []
    | some (.jarr xs) => xs.mapM decodeRefData
    | some _ => .error "json: cannot unmarshal value into field refData"
  | some _ => .error "json: cannot unmarshal value into type memberWrapperResponse"

/-- Model of Go `strconv.Atoi`: an optional sign followed by at least one
decimal digit, with the 64-bit `int` range check of `ParseInt`; any other
input is an `invalid syntax` error, an overflowing one a `value out of
range` error (the clamped value Go also returns is discarded by every
caller in this repository). -/
def goAtoi (s : String) : Except String Int :=
  let cs := s.toList
  let (neg, ds) : Bool × List Char :=
    match cs with
    | '-' :: rest => (true, rest)
    | '+' :: rest => (false, rest)
    | _ => (false, cs)
  if ds = [] ∨ ¬ ds.all (fun c => 48 ≤ c.toNat ∧ c.toNat ≤ 57) then
    .error ("strconv.Atoi: parsing \"" ++ s ++ "\": invalid syntax")
  else
    let n : Nat := ds.foldl (fun acc c => acc * 10 + (c.toNat - 48)) 0
    let v : Int := if neg then -(n : Int) else (n : Int)
    if v < -(2 ^ 63) ∨ (2 ^ 63 - 1) < v then
      .error ("strconv.Atoi: parsing \"" ++ s ++ "\": value out of range")
    else .ok v

/-- `inRange` of the `http` package: half-open interval membership
`a <= code && code < b`. -/
def inRange (code a b : Int) : Bool :=
  a ≤ code ∧ code < b

/-- `IsSuccessful` of the `http` package. -/
def IsSuccessful (code : Int) : Bool := inRange code 200 300

/-- `IsServerError` of the `http` package. -/
def IsServerError (code : Int) : Bool := inRange code 500 600

/-- `IsClientError` of the `http` package. -/
def IsClientError (code : Int) : Bool := inRange code 400 500

/-- The fields of the client's `Response` struct that the middleware
reads: the status code and the fully buffered body. -/
structure HResponse where
  StatusCode : Nat
  Body : Option JValue

/-- The result of one outbound call through the resilient client: either
a transport-level error (the message of the returned `error`) or a
captured `Response`. -/
abbrev CallResult := Except String HResponse

/-- `UnauthorizedMSG` of the `router` package. -/
def UnauthorizedMSG : String := "The request is not authorized"

/-- The struct `UnauthorizedResponse` of the `router` package. -/
structure UnauthorizedResponse where
  Message : String
  Error : String
deriving DecidableEq, Repr

/-- A response written by the middleware: `RespondWithJSON` with an
`UnauthorizedResponse` payload, or `RespondWithError`, whose payload is
the JSON object with single key `error`. -/
inductive HttpWrite where
  | json (status : Nat) (body : UnauthorizedResponse)
  | errorJson (status : Nat) (errMsg : String)
deriving DecidableEq, Repr

/-- What the middleware does with a request: write a rejection, or attach
the user to the request scope and invoke the next handler. -/
inductive MWResult where
  | respond (w : HttpWrite)
  | next (user : User)
deriving DecidableEq, Repr

/-- The three remote endpoints the middleware can call. -/
inductive Endpoint where
  | token
  | businessline
  | businessunit
deriving DecidableEq, Repr

/-- The remote world of one request: the Authorization header of the
incoming request and the results the resilient client would return for
each of the three outbound calls. -/
structure World where
  authorization : GoStr
  login : CallResult
  businessline : CallResult
  businessunit : CallResult

/-- `RBAC.getUser`: exchange the credential at `POST /token`.  Returns
the user, the status code (`0` on transport failure) and the error, as
the source's `(User, int, error)`.  `json.Marshal` of the token request
struct cannot fail and is left implicit; on a 200 with a body that fails
to decode the source returns the partially decoded user, modelled here as
the zero user, with which it agrees on non-JSON bodies. -/
def getUser (login : CallResult) (authentication : Authentication) :
    User × Nat × Option String :=
  match login with
  | .error e => (zeroUser, 0, some e)
  | .ok resp =>
    if resp.StatusCode = 200 then
      match decodeUser resp.Body with
      | .error e => (zeroUser, resp.StatusCode, some e)
      | .ok u => ({ u with Authentication := authentication }, resp.StatusCode, none)
    else
      match decodeErrField resp.Body with
      | .error e => (zeroUser, resp.StatusCode, some e)
      | .ok msg => (zeroUser, resp.StatusCode, some msg)

/-- `RBAC.getBusinessLines`: one enrichment branch, `GET
/v2/umvrefdata/businessline`.  Returns the updated user and the
`errResonse` the branch sends on its channel, if any: code `0` with the
error text on transport failure; otherwise `Code` is set to the status
before the switch, so a 200 whose envelope fails to decode carries code
200, and a non-200 carries its status with the decoded `message` (or the
decode failure text). -/
def getBusinessLines (result : CallResult) (user : User) :
    User × Option errResonse :=
  match result with
  | .error e => (user, some { Code := 0, Message := e })
  | .ok resp =>
    if resp.StatusCode = 200 then
      match decodeMemberWrapper resp.Body with
      | .error e => (user, some { Code := (resp.StatusCode : Int), Message := e })
      | .ok items =>
        ({ user with BusinessLines := user.BusinessLines ++ items.map (·.Name) },
          none)
    else
      match decodeErrResonse resp.Body with
      | .error e => (user, some { Code := (resp.StatusCode : Int), Message := e })
      | .ok msg => (user, some { Code := (resp.StatusCode : Int), Message := msg })

/-- The item loop of `RBAC.getBusinessUnits`: `strconv.Atoi` each item's
code and append it; the first parse failure returns immediately with the
parse error (appends made so far are kept, remaining items discarded). -/
def appendUnits (statusCode : Int) (user : User) :
    List refData → User × Option errResonse
  | [] => (user, none)
  | item :: rest =>
    match goAtoi item.Code with
    | .error e => (user, some { Code := statusCode, Message := e })
    | .ok n =>
      appendUnits statusCode
        { user with BusinessUnits := user.BusinessUnits ++ [n] } rest

/-- `RBAC.getBusinessUnits`: the other enrichment branch, `GET
/v2/umvrefdata/businessunit`; as `getBusinessLines` but parsing each
item's `code` as an integer via `appendUnits`. -/
def getBusinessUnits (result : CallResult) (user : User) :
    User × Option errResonse :=
  match result with
  | .error e => (user, some { Code := 0, Message := e })
  | .ok resp =>
    if resp.StatusCode = 200 then
      match decodeMemberWrapper resp.Body with
      | .error e => (user, some { Code := (resp.StatusCode : Int), Message := e })
      | .ok items => appendUnits (resp.StatusCode : Int) user items
    else
      match decodeErrResonse resp.Body with
      | .error e => (user, some { Code := (resp.StatusCode : Int), Message := e })
      | .ok msg => (user, some { Code := (resp.StatusCode : Int), Message := msg })

/-- The list of errors the collector goroutine has gathered when the
barrier releases.  Each branch emits at most one error; when both emit,
the channel order between the two branches is scheduling-dependent, which
the parameter `blFirst` captures. -/
def collectErrs (blErr buErr : Option errResonse) (blFirst : Bool) :
    List errResonse :=
  match blErr, buErr with
  | none, none => []
  | some e, none => [e]
  | none, some e => [e]
  | some a, some b => if blFirst then [a, b] else [b, a]

/-- The decision of `RBAC.Middleware` once the barrier has released, from
the source's lines following `wg.Wait()`: no errors attach the user and
invoke the next handler; otherwise only the first collected error is
inspected — a 5xx code gives 502 with its message, a positive code gives
401, any other (the transport-failure code 0) gives 500. -/
def aggregate (user : User) (errs : List errResonse) : MWResult :=
  match errs with
  | [] => .next user
  | e :: _ =>
    if IsServerError e.Code then .respond (.errorJson 502 e.Message)
    else if e.Code > 0 then
      .respond (.json 401 { Message := UnauthorizedMSG, Error := e.Message })
    else .respond (.errorJson 500 e.Message)

/-- `RBAC.Middleware`, as a function of the request's world: parse the
Authorization header, exchange the token, on 200 run both enrichment
branches and aggregate, otherwise reject.  The second component records
which endpoints were called.  The two branches mutate disjoint `User`
fields, so their concurrent execution is modelled by sequential
composition; the code ignores `getUser`'s error when the status is 200,
which the `if` on the status alone preserves. -/
def Middleware (w : World) (blFirst : Bool) : MWResult × List Endpoint :=
  match getAuthentication w.authorization with
  | .error e =>
    (.respond (.json 401 { Message := UnauthorizedMSG, Error := e.message }), [])
  | .ok authentication =>
    let u := getUser w.login authentication
    if u.2.1 = 200 then
      let bl := getBusinessLines w.businessline u.1
      let bu := getBusinessUnits w.businessunit bl.1
      let errs := collectErrs bl.2 bu.2 blFirst
      (aggregate bu.1 errs, [.token, .businessline, .businessunit])
    else if u.2.1 = 401 then
      (.respond (.json 401 { Message := UnauthorizedMSG, Error := u.2.2.getD "" }),
        [.token])
    else
      (.respond (.errorJson 502 (u.2.2.getD "")), [.token])

/-- The kind of a transport-level error returned by `Client.handle`
(after it unwraps `*url.Error`): the `context.Canceled` sentinel, the
`context.DeadlineExceeded` sentinel, or any other error. -/
inductive ErrKind where
  | canceled
  | deadlineExceeded
  | other
deriving DecidableEq, Repr

/-- The outcome of one attempt of `Client.handle`: a transport-level
error with its message, or a captured response (status code and body
bytes, the latter opaque at this layer). -/
inductive Outcome where
  | err (kind : ErrKind) (msg : String)
  | ok (statusCode : Nat) (body : String)
deriving DecidableEq, Repr

/-- The source's retry condition `err != nil ||
inRange(response.StatusCode, 500, 600)`, which is also the loop's
continue condition. -/
def retriable : Outcome → Bool
  | .err _ _ => true
  | .ok s _ => inRange (s : Int) 500 600

/-- Whether an outcome is the `context.Canceled` sentinel, the only error
`Client.do` compares against (`err == context.Canceled`). -/
def isCanceledErr : Outcome → Bool
  | .err .canceled _ => true
  | _ => false

/-- The retry loop of `Client.do` (`for retries < c.maxRetry`), with the
remaining iteration budget as `fuel` and the outcome of the `retries`-th
retry given by `attempts (retries)` (`attempts 0` being the initial
attempt).  Each iteration sleeps the retry delay, makes the next attempt,
continues on any error, returns on a non-5xx response, and otherwise
loops; returns the last outcome and the number of retries performed. -/
def clientLoop (attempts : Nat → Outcome) :
    Nat → Nat → Outcome → Outcome × Nat
  | 0, retries, last => (last, retries)
  | fuel + 1, retries, _ =>
    let o := attempts (retries + 1)
    if retriable o then clientLoop attempts fuel (retries + 1) o
    else (o, retries + 1)

/-- `Client.do` of the `http` package, with the attempt outcomes
abstracted as `attempts`: make the initial attempt; when it is retryable
and `maxRetry > 0`, return immediately only if the error is the
`context.Canceled` sentinel, and otherwise run the retry loop.  Returns
the final outcome, the total number of attempts made, and the number of
sleeps of the fixed retry delay taken. -/
def clientDo (maxRetry : Nat) (attempts : Nat → Outcome) :
    Outcome × Nat × Nat :=
  let first := attempts 0
  if retriable first ∧ maxRetry > 0 then
    if isCanceledErr first then (first, 1, 0)
    else
      let r := clientLoop attempts maxRetry 0 first
      (r.1, r.2 + 1, r.2)
  else (first, 1, 0)

/-- A constructed outbound client; `common.New` succeeds exactly when the
configured URL parses and every configured root-CA bundle loads, which
the callers below receive as an `Except` result. -/
structure HClient where
  url : String
deriving DecidableEq, Repr

/-- The struct `RBAC` of the `router` package; a `nil` member-wrapper
client is `none`. -/
structure RBAC where
  loginService : HClient
  memberWrapper : Option HClient
deriving DecidableEq, Repr

/-- `NewRBAC` of the `router` package, with the two `common.New` results
as inputs: the login-service error is propagated; the member-wrapper
result's error is discarded (`memberWrapper, _ := common.New(...)`),
leaving the nil client on failure, and the `if err != nil` that follows
it re-checks the login-service error, which is nil on that path. -/
def NewRBAC (loginResult memberResult : Except String HClient) :
    Except String RBAC :=
  match loginResult with
  | .error e => .error e
  | .ok loginService =>
    .ok { loginService := loginService, memberWrapper := memberResult.toOption }

/-- The world of the non-numeric business-unit code scenario: token
exchange succeeds, the business-line endpoint returns a valid row, the
business-unit endpoint returns 200 with one reference item whose code is
`"abc"`. -/
def unitParseWorld : World :=
  { authorization := "Bearer tok".toList,
    login := .ok ⟨200, some (.jobj [("userInfo", .jarr []), ("expTime", .jnum 1),
      ("chpRoles", .jarr [.jstr "admin"])])⟩,
    businessline := .ok ⟨200, some (.jobj [("refData",
      .jarr [.jobj [("code", .jstr "1"), ("name", .jstr "East")]])])⟩,
    businessunit := .ok ⟨200, some (.jobj [("refData",
      .jarr [.jobj [("code", .jstr "abc")]])])⟩ }

/-- The world in which the login service answers 200 with a body that is
not valid JSON, while both reference endpoints answer 200 with an empty
reference list. -/
def malformed200World : World :=
  { authorization := "Bearer t".toList,
    login := .ok ⟨200, none⟩,
    businessline := .ok ⟨200, some (.jobj [("refData", .jarr [])])⟩,
    businessunit := .ok ⟨200, some (.jobj [("refData", .jarr [])])⟩ }

/-- The attempt outcomes of the deadline-expiry scenario: the first
attempt fails with `context.DeadlineExceeded`, every later one succeeds
with 200. -/
def deadlineAttempts : Nat → Outcome := fun n =>
  match n with
  | 0 => .err .deadlineExceeded "context deadline exceeded"
  | _ + 1 => .ok 200 "payload"

/-- The attempt outcomes of the mid-loop cancellation scenario: the first
attempt returns a retryable 500, then the call's context is canceled and
every later attempt fails with `context.Canceled`. -/
def canceledMidAttempts : Nat → Outcome := fun n =>
  match n with
  | 0 => .ok 500 "server error"
  | _ + 1 => .err .canceled "context canceled"

/-- The attempt outcomes of the canceled-from-the-start scenario. -/
def canceledFirst : Nat → Outcome := fun _ => .err .canceled "context canceled"

/-- The attempt outcomes of the spec's retry scenario: 500 twice, then
200. -/
def retryOutcomes : Nat → Outcome := fun n =>
  if n < 2 then .ok 500 "err" else .ok 200 "payload"

/-- helper: the item loop of the business-unit branch only ever emits an
error carrying the status code it was given. -/
theorem appendUnits_emits_status (sc : Int) :
    ∀ (u : User) (items : List refData) (e : errResonse),
      (appendUnits sc u items).2 = some e → e.Code = sc := by
  intro u items
  induction items generalizing u with
  | nil =>
    intro e h
    simp [appendUnits] at h
  | cons x xs ih =>
    intro e h
    simp only [appendUnits] at h
    cases hx : goAtoi x.Code with
    | error m =>
      rw [hx] at h
      simp at h
      rw [← h]
    | ok n =>
      rw [hx] at h
      exact ih _ e h

/-- helper: every error the business-line branch emits carries a
nonnegative code (0 on transport failure, the HTTP status otherwise),
which grounds the nonnegativity hypothesis of the first-error theorem. -/
theorem getBusinessLines_code_nonneg (r : CallResult) (u : User)
    (e : errResonse) (h : (getBusinessLines r u).2 = some e) : 0 ≤ e.Code := by
  cases r with
  | error m =>
    simp [getBusinessLines] at h
    rw [← h]
  | ok resp =>
    simp only [getBusinessLines] at h
    split at h <;> split at h <;> simp at h <;> rw [← h] <;>
      exact Int.natCast_nonneg _

/-- helper: every error the business-unit branch emits carries a
nonnegative code. -/
theorem getBusinessUnits_code_nonneg (r : CallResult) (u : User)
    (e : errResonse) (h : (getBusinessUnits r u).2 = some e) : 0 ≤ e.Code := by
  cases r with
  | error m =>
    simp [getBusinessUnits] at h
    rw [← h]
  | ok resp =>
    simp only [getBusinessUnits] at h
    split at h
    · split at h
      · simp at h
        rw [← h]
        exact Int.natCast_nonneg _
      · rw [appendUnits_emits_status _ _ _ _ h]
        exact Int.natCast_nonneg _
    · split at h <;> simp at h <;> rw [← h] <;> exact Int.natCast_nonneg _

/-- helper: a list of characters none of which is a space splits into
itself alone. -/
theorem splitSp_nospace (t : GoStr) (h : ∀ c ∈ t, c ≠ ' ') :
    splitSp t = [t] := by
  induction t with
  | nil => rfl
  | cons c rest ih =>
    have hc : ¬ c = ' ' := h c (by simp)
    have hrest : ∀ x ∈ rest, x ≠ ' ' := fun x hx => h x (by simp [hx])
    simp only [splitSp, if_neg hc, ih hrest]

/-- helper: splitting a space-free prefix, a space, and a remainder
yields the prefix followed by the split of the remainder. -/
theorem splitSp_append (t c : GoStr) (h : ∀ x ∈ t, x ≠ ' ') :
    splitSp (t ++ ' ' :: c) = t :: splitSp c := by
  induction t with
  | nil => simp [splitSp]
  | cons a rest ih =>
    have ha : ¬ a = ' ' := h a (by simp)
    have hrest : ∀ x ∈ rest, x ≠ ' ' := fun x hx => h x (by simp [hx])
    simp only [List.cons_append, splitSp, if_neg ha, List.append_eq, ih hrest]

/-- C6 (corrected): an Authorization header value with three or more
space-separated tokens does not truncate to the first two tokens — at the
concrete header `"Bearer a b"` the parse yields the zero
`Authentication`, not scheme `"Bearer"` with credential `"a"`. -/
theorem c6_counterexample :
    NewAuthentication "Bearer a b".toList ≠
      { «Type» := "Bearer".toList, Credenteials := "a".toList } ∧
    NewAuthentication "Bearer a b".toList =
      { «Type» := [], Credenteials := [] } := by
  decide

/-- C6 (amended): for every Authorization header value that splits into
three or more tokens, `NewAuthentication` yields the zero
`Authentication` (empty scheme and empty credential). -/
theorem c6_three_tokens_zero (header : GoStr)
    (h : 3 ≤ (splitSp header).length) :
    NewAuthentication header = { «Type» := [], Credenteials := [] } := by
  unfold NewAuthentication
  rcases hs : splitSp header with _ | ⟨a, _ | ⟨b, _ | ⟨c, t⟩⟩⟩
  · rfl
  · rw [hs] at h; simp at h
  · rw [hs] at h; simp at h
  · rfl

/-- Witness for C6: the header `"a b c"` splits into three tokens and
parses to the zero `Authentication`. -/
theorem c6_witness :
    3 ≤ (splitSp "a b c".toList).length ∧
    NewAuthentication "a b c".toList = { «Type» := [], Credenteials := [] } :=
  ⟨by decide, c6_three_tokens_zero "a b c".toList (by decide)⟩

/-- C7 (corrected): the render/re-parse round trip fails for an
`Authentication` whose non-empty scheme is `"Bearer"` but whose
credential `"a b"` contains a space: re-parsing its rendering yields the
zero `Authentication` instead of the original. -/
theorem c7_counterexample :
    ({ «Type» := "Bearer".toList, Credenteials := "a b".toList } :
        Authentication).«Type» ≠ [] ∧
    NewAuthentication
        ({ «Type» := "Bearer".toList, Credenteials := "a b".toList } :
          Authentication).String ≠
      { «Type» := "Bearer".toList, Credenteials := "a b".toList } := by
  decide

/-- C7 (amended): parsing the same header twice yields structurally equal
`Authentication` values, and rendering an `Authentication` back to a
header and re-parsing it is a round trip when the scheme is non-empty and
neither the scheme nor the credential contains a space. -/
theorem c7_parse_roundtrip (a : Authentication) (hT : a.«Type» ≠ [])
    (hTs : ∀ c ∈ a.«Type», c ≠ ' ')
    (hCs : ∀ c ∈ a.Credenteials, c ≠ ' ') :
    (∀ h : GoStr, NewAuthentication h = NewAuthentication h) ∧
    NewAuthentication a.String = a := by
  refine ⟨fun _ => rfl, ?_⟩
  unfold Authentication.String
  rw [if_pos hT]
  unfold NewAuthentication
  rw [splitSp_append _ _ hTs, splitSp_nospace _ hCs]

/-- Witness for C7: the round trip at the concrete value with scheme
`"Bearer"` and credential `"tok"`. -/
theorem c7_witness :
    NewAuthentication
        ({ «Type» := "Bearer".toList, Credenteials := "tok".toList } :
          Authentication).String =
      { «Type» := "Bearer".toList, Credenteials := "tok".toList } :=
  (c7_parse_roundtrip _ (by decide) (by decide) (by decide)).2

/-- C10: when the login-service client constructs successfully, `NewRBAC`
returns a non-nil `RBAC` and a nil error even when the member-wrapper
client construction failed — that error is discarded and the returned
`RBAC` holds a nil member-wrapper client. -/
theorem c10_member_wrapper_error_discarded (c : HClient) (e : String) :
    NewRBAC (.ok c) (.error e) =
      .ok { loginService := c, memberWrapper := none } := rfl

/-- C2: with at least one collected error, the gate inspects only the
first — the decision is independent of the remaining errors; a 5xx first
error yields 502 with its message, a nonzero (positive, as every emitted
code is a status code or 0) first error yields 401 with its message, a
zero code yields 500 with its message; and the user is never attached nor
the next handler invoked. -/
theorem c2_first_error_decides (u : User) (e : errResonse)
    (rest rest' : List errResonse) (hnn : 0 ≤ e.Code) :
    aggregate u (e :: rest) = aggregate u (e :: rest') ∧
    (IsServerError e.Code = true →
      aggregate u (e :: rest) = .respond (.errorJson 502 e.Message)) ∧
    (IsServerError e.Code = false → e.Code ≠ 0 →
      aggregate u (e :: rest) =
        .respond (.json 401 { Message := UnauthorizedMSG, Error := e.Message })) ∧
    (e.Code = 0 → aggregate u (e :: rest) = .respond (.errorJson 500 e.Message)) ∧
    (∀ v : User, aggregate u (e :: rest) ≠ .next v) := by
  refine ⟨rfl, ?_, ?_, ?_, ?_⟩
  · intro h
    simp only [aggregate, h, if_true]
  · intro h1 h2
    have hpos : e.Code > 0 := lt_of_le_of_ne hnn (Ne.symm h2)
    simp only [aggregate, h1, Bool.false_eq_true, if_false, if_pos hpos]
  · intro h0
    simp [aggregate, h0, IsServerError, inRange]
  · intro v
    simp only [aggregate]
    split
    · simp
    · split <;> simp

/-- Witness for C2: a first error with code 503 decides the request as
502 Bad Gateway with its message. -/
theorem c2_witness :
    aggregate zeroUser [{ Code := 503, Message := "boom" }] =
      .respond (.errorJson 502 "boom") :=
  (c2_first_error_decides zeroUser { Code := 503, Message := "boom" } [] []
    (by decide)).2.1 (by decide)

/-- C3: once authentication parsing passed, the gate maps the
token-exchange status: 200 continues to enrichment (both reference
endpoints are called), 401 rejects with 401 carrying exactly the message
decoded from the login service's error body, and any other status
rejects with 502; on a 401 or 502 rejection only the token endpoint was
called. -/
theorem c3_token_exchange_gate (w : World) (blFirst : Bool)
    (auth : Authentication)
    (hauth : getAuthentication w.authorization = .ok auth) :
    ((getUser w.login auth).2.1 = 200 →
      (Middleware w blFirst).2 = [.token, .businessline, .businessunit]) ∧
    (∀ resp msg, w.login = .ok resp → resp.StatusCode = 401 →
      decodeErrField resp.Body = .ok msg →
      Middleware w blFirst =
        (.respond (.json 401 { Message := UnauthorizedMSG, Error := msg }),
          [.token])) ∧
    ((getUser w.login auth).2.1 ≠ 200 → (getUser w.login auth).2.1 ≠ 401 →
      Middleware w blFirst =
        (.respond (.errorJson 502 ((getUser w.login auth).2.2.getD "")),
          [.token])) := by
  refine ⟨?_, ?_, ?_⟩
  · intro h200
    simp only [Middleware, hauth, h200, if_true, if_pos rfl]
  · intro resp msg hl hst hdec
    have hg : getUser w.login auth = (zeroUser, 401, some msg) := by
      simp only [getUser, hl, hst, hdec]
      norm_num
    simp only [Middleware, hauth, hg]
    norm_num
  · intro h1 h2
    simp only [Middleware, hauth, if_neg h1, if_neg h2]

/-- Witness for C3: the login service answers 401 with body
`\x7b"error":"bad token"\x7d`; the middleware rejects 401 with exactly
that message, and only the token endpoint was called. -/
theorem c3_witness :
    Middleware
        { authorization := "Bearer tok".toList,
          login := .ok ⟨401, some (.jobj [("error", .jstr "bad token")])⟩,
          businessline := .ok ⟨200, none⟩,
          businessunit := .ok ⟨200, none⟩ } true =
      (.respond (.json 401 { Message := UnauthorizedMSG, Error := "bad token" }),
        [.token]) :=
  (c3_token_exchange_gate _ true
      { «Type» := "Bearer".toList, Credenteials := "tok".toList }
      (by decide)).2.1
    ⟨401, some (.jobj [("error", .jstr "bad token")])⟩ "bad token" rfl rfl
    (by decide)

/-- helper: the item loop of the business-unit branch aborts at the first
item whose code does not parse, emitting the parse error with the given
status code. -/
theorem appendUnits_parse_failure (sc : Int) (good : List refData)
    (bad : refData) (rest : List refData) (e : String)
    (hbad : goAtoi bad.Code = .error e) :
    ∀ user : User, (∀ x ∈ good, ∃ n, goAtoi x.Code = .ok n) →
      (appendUnits sc user (good ++ bad :: rest)).2 =
        some { Code := sc, Message := e } := by
  induction good with
  | nil =>
    intro user _
    simp [appendUnits, hbad]
  | cons x xs ih =>
    intro user hgood
    obtain ⟨n, hn⟩ := hgood x (by simp)
    simp only [List.cons_append, appendUnits, hn]
    exact ih _ (fun y hy => hgood y (by simp [hy]))

/-- C1 (corrected): in the non-numeric business-unit code scenario the
middleware does not reject with 500 Internal Server Error — under either
channel order it rejects with 401 Unauthorized carrying the parse error,
because the emitted error carries the branch's HTTP status 200, which is
nonzero and not a server error. -/
theorem c1_counterexample :
    (Middleware unitParseWorld true).1 ≠
      .respond (.errorJson 500 "strconv.Atoi: parsing \"abc\": invalid syntax") ∧
    (Middleware unitParseWorld true).1 =
      .respond (.json 401 ⟨UnauthorizedMSG, "strconv.Atoi: parsing \"abc\": invalid syntax"⟩) ∧
    (Middleware unitParseWorld false).1 =
      .respond (.json 401 ⟨UnauthorizedMSG, "strconv.Atoi: parsing \"abc\": invalid syntax"⟩) := by
  refine ⟨by decide, by decide, by decide⟩

/-- C1 (amended): when token exchange succeeds, the business-line branch
emits no error, and the business-unit branch receives a 200 response
whose decoded reference items contain a first non-parseable code, the
branch aborts immediately with an `errResonse` carrying the parse error
(and the status code 200), and the middleware rejects the request with
401 Unauthorized carrying that parse error — first-error-wins semantics
with the 401 branch, since the emitted code 200 is positive and not a
5xx. -/
theorem c1_unit_parse_failure (w : World) (blFirst : Bool)
    (auth : Authentication) (resp : HResponse) (good : List refData)
    (bad : refData) (rest : List refData) (e : String)
    (hauth : getAuthentication w.authorization = .ok auth)
    (hcode : (getUser w.login auth).2.1 = 200)
    (hbl : (getBusinessLines w.businessline (getUser w.login auth).1).2 = none)
    (hbu : w.businessunit = .ok resp)
    (hst : resp.StatusCode = 200)
    (hdec : decodeMemberWrapper resp.Body = .ok (good ++ bad :: rest))
    (hgood : ∀ x ∈ good, ∃ n, goAtoi x.Code = .ok n)
    (hbad : goAtoi bad.Code = .error e) :
    (∀ u : User, (getBusinessUnits w.businessunit u).2 =
      some { Code := 200, Message := e }) ∧
    (Middleware w blFirst).1 =
      .respond (.json 401 { Message := UnauthorizedMSG, Error := e }) := by
  have hunit : ∀ u : User, (getBusinessUnits w.businessunit u).2 =
      some { Code := 200, Message := e } := by
    intro u
    simp only [getBusinessUnits, hbu, hst, if_pos rfl, hdec]
    have := appendUnits_parse_failure ((200 : Nat) : Int) good bad rest e
      hbad u hgood
    simpa using this
  refine ⟨hunit, ?_⟩
  simp only [Middleware, hauth, hcode, if_true, if_pos rfl, hbl,
    hunit (getBusinessLines w.businessline (getUser w.login auth).1).1]
  simp [collectErrs, aggregate, IsServerError, inRange]

/-- Witness for C1: at the concrete world of the scenario, the middleware
rejects with 401 carrying the `strconv.Atoi` error. -/
theorem c1_witness :
    (Middleware unitParseWorld true).1 =
      .respond (.json 401 ⟨UnauthorizedMSG, "strconv.Atoi: parsing \"abc\": invalid syntax"⟩) :=
  (c1_unit_parse_failure unitParseWorld true
      { «Type» := "Bearer".toList, Credenteials := "tok".toList }
      ⟨200, some (.jobj [("refData", .jarr [.jobj [("code", .jstr "abc")]])])⟩
      [] ⟨"abc", ""⟩ [] "strconv.Atoi: parsing \"abc\": invalid syntax"
      (by decide) (by decide) (by decide) rfl rfl (by decide)
      (by intro x hx; cases hx) (by decide)).2

/-- C8 (code bug): when the login service answers 200 with a body that
fails to decode, `getUser` returns the decode error, but the middleware
switches only on the status code — it proceeds past token exchange and
attaches the zero `User`, whose authentication is not the request's
parsed authentication and whose info, roles and expiry were never set,
contradicting the invariant that a `User` past token exchange is fully
exchanged or absent. -/
theorem c8_code_200_decode_error_proceeds :
    Middleware malformed200World true =
      (.next zeroUser, [.token, .businessline, .businessunit]) ∧
    (getUser malformed200World.login
        (NewAuthentication "Bearer t".toList)).2.2 ≠ none ∧
    zeroUser.Authentication ≠ NewAuthentication "Bearer t".toList := by
  refine ⟨by decide, by decide, by decide⟩

/-- helper: the retry loop returns the first non-retryable outcome it
reaches — if every retry strictly before attempt `k` is retryable and
attempt `k` is a non-5xx response within the budget, the loop stops there
with `k` retries performed. -/
theorem clientLoop_early (attempts : Nat → Outcome) (k s : Nat) (b : String)
    (hk : attempts k = .ok s b) (hs : retriable (.ok s b) = false) :
    ∀ fuel r last, r < k → k ≤ r + fuel →
      (∀ j, r < j → j < k → retriable (attempts j) = true) →
      clientLoop attempts fuel r last = (.ok s b, k) := by
  intro fuel
  induction fuel with
  | zero =>
    intro r last h1 h2 _
    omega
  | succ f ih =>
    intro r last h1 h2 h3
    simp only [clientLoop]
    by_cases hr : r + 1 = k
    · rw [hr, hk, hs]
      simp [hr]
    · have hlt : r + 1 < k := by omega
      rw [h3 (r + 1) (by omega) hlt]
      simp only [if_true]
      exact ih (r + 1) _ hlt (by omega) (fun j hj1 hj2 => h3 j (by omega) hj2)

/-- helper: when every attempt is retryable, the retry loop exhausts its
budget, performing exactly `fuel + 1` retries from retry index `r`. -/
theorem clientLoop_exhaust (g : Nat → Outcome)
    (hall : ∀ j, retriable (g j) = true) :
    ∀ fuel r last, 0 < fuel →
      clientLoop g fuel r last = (g (r + fuel), r + fuel) := by
  intro fuel
  induction fuel with
  | zero =>
    intro r last h
    omega
  | succ f ih =>
    intro r last _
    simp only [clientLoop, hall (r + 1), if_true]
    cases f with
    | zero => simp [clientLoop]
    | succ f' =>
      rw [ih (r + 1) (g (r + 1)) (by omega)]
      have : r + 1 + (f' + 1) = r + (f' + 1 + 1) := by omega
      rw [this]

/-- C4 (corrected): a deadline-expiry first attempt with `maxRetry = 1`
is followed by a completed second attempt (two attempts, one sleep), and
with `maxRetry = 2` a first retryable attempt followed by cancellation
still completes two further attempts — the call does not return
immediately in either case. -/
theorem c4_counterexample :
    clientDo 1 deadlineAttempts = (.ok 200 "payload", 2, 1) ∧
    clientDo 2 canceledMidAttempts =
      (.err .canceled "context canceled", 3, 2) := by
  refine ⟨by decide, by decide⟩

/-- C4 (amended): only the `context.Canceled` sentinel short-circuits the
retry decision, and only when it is the first attempt's outcome: such a
call returns that error after exactly one attempt and no sleep, for every
retry budget.  (Deadline-expiry errors and cancellations surfacing during
the retry loop are retried like any other transport error, as the
counterexample shows.) -/
theorem c4_canceled_first_attempt_no_retry (maxRetry : Nat)
    (attempts : Nat → Outcome) (h : isCanceledErr (attempts 0) = true) :
    clientDo maxRetry attempts = (attempts 0, 1, 0) := by
  have hr : retriable (attempts 0) = true := by
    cases ha : attempts 0 with
    | err k m => simp [retriable]
    | ok s b => rw [ha] at h; simp [isCanceledErr] at h
  simp only [clientDo]
  rcases Nat.eq_zero_or_pos maxRetry with h0 | hpos
  · subst h0; simp
  · rw [if_pos ⟨hr, hpos⟩, if_pos h]

/-- Witness for C4: with retry budget 3 and a canceled first attempt, the
call returns the cancellation after one attempt. -/
theorem c4_witness :
    clientDo 3 canceledFirst = (.err .canceled "context canceled", 1, 0) :=
  c4_canceled_first_attempt_no_retry 3 canceledFirst (by decide)

/-- C5: after a retryable, non-canceled first attempt the client sleeps
the retry delay before each retry and stops at attempt `k`, the first
non-5xx response, returning it after `k + 1` attempts and `k` sleeps, for
any `1 ≤ k ≤ maxRetry`; with `maxRetry = 0` exactly one attempt is made
regardless of status; and when every outcome stays retryable the loop
performs exactly `maxRetry` retries, `maxRetry + 1` attempts in all. -/
theorem c5_retry_loop_spec (maxRetry k s : Nat) (b : String)
    (attempts : Nat → Outcome)
    (h0 : retriable (attempts 0) = true)
    (hnc : isCanceledErr (attempts 0) = false)
    (hk1 : 1 ≤ k) (hk2 : k ≤ maxRetry)
    (hbet : ∀ j, 1 ≤ j → j < k → retriable (attempts j) = true)
    (hk : attempts k = .ok s b)
    (hs : retriable (.ok s b) = false) :
    clientDo maxRetry attempts = (.ok s b, k + 1, k) ∧
    (∀ g : Nat → Outcome, clientDo 0 g = (g 0, 1, 0)) ∧
    (∀ g : Nat → Outcome, (∀ j, retriable (g j) = true) →
      isCanceledErr (g 0) = false →
      clientDo maxRetry g = (g maxRetry, maxRetry + 1, maxRetry)) := by
  refine ⟨?_, ?_, ?_⟩
  · simp only [clientDo]
    rw [if_pos ⟨h0, by omega⟩, if_neg (by simp [hnc])]
    rw [clientLoop_early attempts k s b hk hs maxRetry 0 (attempts 0)
      (by omega) (by omega) (fun j hj1 hj2 => hbet j (by omega) hj2)]
  · intro g
    simp [clientDo]
  · intro g hall hnc2
    simp only [clientDo]
    rw [if_pos ⟨hall 0, by omega⟩, if_neg (by simp [hnc2])]
    rw [clientLoop_exhaust g hall maxRetry 0 (g 0) (by omega)]
    norm_num

/-- Witness for C5: with `maxRetry = 2` and outcomes 500, 500, 200 the
call returns the 200 response after exactly 3 attempts and 2 sleeps. -/
theorem c5_witness :
    clientDo 2 retryOutcomes = (.ok 200 "payload", 3, 2) :=
  (c5_retry_loop_spec 2 2 200 "payload" retryOutcomes (by decide) (by decide)
    (by decide) (by decide)
    (fun j hj1 hj2 => by
      have hj : j = 1 := by omega
      subst hj
      decide)
    (by decide) (by decide)).1

example : NewAuthentication "Bearer tok".toList =
    { «Type» := "Bearer".toList, Credenteials := "tok".toList } := by decide

example : NewAuthentication "Bearer a b".toList =
    { «Type» := [], Credenteials := [] } := by decide

example : NewAuthentication "tok".toList =
    { «Type» := [], Credenteials := "tok".toList } := by decide

example : goAtoi "42" = .ok 42 := by decide
example : goAtoi "-7" = .ok (-7) := by decide
example : goAtoi "abc" =
    .error "strconv.Atoi: parsing \"abc\": invalid syntax" := by decide
example : goAtoi "" = .error "strconv.Atoi: parsing \"\": invalid syntax" := by
  decide

end UserDetails
